import Mathlib

/-
Verification development for the repository milan-hl/mpnum-examples.

The repository consists of two Jupyter notebooks:
  Quantum_physics/00_intro.ipynb                          (shared definitions)
  Quantum_physics/02_Time_evolution_and_ground_states.ipynb

The notebooks are straight-line scripts that call into the external
libraries mpnum / numpy / scipy.  We embed the code contributed by the
repository itself:

  * the numerical data built by the notebooks (Pauli matrices, two-site
    Hamiltonian terms, the alternating initial product state) is embedded
    over Gaussian rationals (pairs of rationals re + i*im); every number
    appearing in the notebooks (0, 1, -1, i, -i, h = 0.3, ...) is Gaussian
    rational, so this embedding is exact;
  * two-site operators built with mp.chain of two single-site operators are
    represented by their 4x4 global matrices (mp.chain is the tensor /
    Kronecker product, MPArray.to_array_global of a 2-site MPO is exactly
    that matrix);
  * calls into the external libraries are embedded as events in explicit
    call traces: the notebooks' own contribution is which library functions
    they call, in which order and with which arguments;
  * results computed by the external library (matrix exponentials,
    eigenvectors, ...) are represented symbolically, by the arguments the
    notebook passes to the library call that produces them.
-/

namespace MpnumExamples

/-! ## Gaussian rational scalars and small matrices

The notebooks work with complex vectors and matrices whose entries are
Gaussian rationals, so we model scalars as pairs (re, im) of rationals. -/

/-- Scalar type of the embedding: the Gaussian rational re + i * im. -/
abbrev GQ : Type := ℚ × ℚ

/-- Complex addition on Gaussian rationals. -/
def gadd (a b : GQ) : GQ := (a.1 + b.1, a.2 + b.2)

/-- Complex multiplication on Gaussian rationals. -/
def gmul (a b : GQ) : GQ := (a.1 * b.1 - a.2 * b.2, a.1 * b.2 + a.2 * b.1)

/-- Single-site (2x2) complex matrix, as in `00_intro.ipynb` cell 4. -/
abbrev Mat2 : Type := Fin 2 → Fin 2 → GQ

/-- Two-site (4x4) complex matrix: the global matrix of a 2-site MPO. -/
abbrev Mat4 : Type := Fin 4 → Fin 4 → GQ

/-- Entrywise sum of two 4x4 matrices (the MPO sum `+` of the notebook). -/
def madd (a b : Mat4) : Mat4 := fun i j => gadd (a i j) (b i j)

/-- Scalar multiple of a 4x4 matrix by a rational (`h * ...` in the notebook). -/
def smul (c : ℚ) (a : Mat4) : Mat4 := fun i j => (c * (a i j).1, c * (a i j).2)

/-- Row/column index split of a 4x4 matrix into the two tensor factors. -/
def split4 (i : Fin 4) : Fin 2 × Fin 2 :=
  (⟨i.val / 2, by have h := i.isLt; omega⟩, ⟨i.val % 2, by have h := i.isLt; omega⟩)

/-- Kronecker (tensor) product of two single-site matrices: the global
matrix of `mp.chain((a, b))` for single-site MPOs a, b. -/
def kron (a b : Mat2) : Mat4 :=
  fun i j => gmul (a (split4 i).1 (split4 j).1) (b (split4 i).2 (split4 j).2)

/-- Pauli x matrix, `px` / `mpx` of `00_intro.ipynb`. -/
def mpx : Mat2 := ![![(0, 0), (1, 0)], ![(1, 0), (0, 0)]]

/-- Pauli y matrix, `py` / `mpy` of `00_intro.ipynb`. -/
def mpy : Mat2 := ![![(0, 0), (0, -1)], ![(0, 1), (0, 0)]]

/-- Pauli z matrix, `pz` / `mpz` of `00_intro.ipynb`. -/
def mpz : Mat2 := ![![(1, 0), (0, 0)], ![(0, 0), (-1, 0)]]

/-- Single-qubit identity, `mid = mp.factory.eye(sites=1, ldim=ldim)`. -/
def mid : Mat2 := ![![(1, 0), (0, 0)], ![(0, 0), (1, 0)]]

/-! ## Constants of `02_Time_evolution_and_ground_states.ipynb`, cell 3 -/

/-- Local dimension, `ldim = 2`. -/
def ldim : ℕ := 2

/-- Number of chain sites, `n_sites = 6`. -/
def n_sites : ℕ := 6

/-- Width of the nearest-neighbour terms, `width = 2`. -/
def width : ℕ := 2

/-- Hamiltonian parameter, `h = .3`. -/
def hVal : ℚ := 3 / 10

/-- Total evolution time, `t = 0.9`. -/
def tVal : ℚ := 9 / 10

/-- Number of Trotter steps, `steps = 5`. -/
def steps : ℕ := 5

/-- Trotter step size, `tau = t / steps`. -/
def tauVal : ℚ := tVal / (steps : ℚ)

/-- Relative SVD truncation error used by every `compress` call, `1e-10`. -/
def relerrVal : ℚ := 1 / 10000000000

/-! ## Hamiltonian term construction (notebook 02, cell 5)

Source:
  h_term = mp.chain((mpx, mpx)) + mp.chain((mpy, mpy)) + h * mp.chain((mpz, mid))
  h_terms = [h_term.copy() for _ in range(n_sites - 1)]
  h_terms[-1] += h * mp.chain((mid, mpz))
-/

/-- The generic nearest-neighbour term `h_term` of notebook 02, cell 5. -/
def h_term (h : ℚ) : Mat4 :=
  madd (madd (kron mpx mpx) (kron mpy mpy)) (smul h (kron mpz mid))

/-- In-place update of the last element of a list; embeds the Python
augmented assignment `xs[-1] += y` (as the map `t => t + y` on the last
element, leaving every other element unchanged). -/
def updLast (f : α → α) : List α → List α
  | [] => []
  | [a] => [f a]
  | a :: b :: l => a :: updLast f (b :: l)

/-- The list `h_terms` of notebook 02, cell 5, for chain length `n` and
Hamiltonian parameter `h`. -/
def h_terms (n : ℕ) (h : ℚ) : List Mat4 :=
  updLast (fun tm => madd tm (smul h (kron mid mpz)))
    (List.replicate (n - 1) (h_term h))

lemma updLast_replicate (f : α → α) (x : α) :
    ∀ m : ℕ, updLast f (List.replicate (m + 1) x) = List.replicate m x ++ [f x] := by
  intro m
  induction m with
  | zero => rfl
  | succ k ih =>
    have h2 : List.replicate (k + 2) x = x :: List.replicate (k + 1) x :=
      List.replicate_succ x (k + 1)
    rw [h2]
    have hne : List.replicate (k + 1) x = x :: List.replicate k x :=
      List.replicate_succ x k
    rw [hne]
    show x :: updLast f (x :: List.replicate k x) = _
    rw [← hne, ih, List.replicate_succ]
    simp

end MpnumExamples

namespace MpnumExamples

/-- C2: the construction of `h_terms` in notebook 02 produces exactly
`n_sites - 1` nearest-neighbour terms; every term except the last equals
`sigma_x ⊗ sigma_x + sigma_y ⊗ sigma_y + h * (sigma_z ⊗ id)`, and the last
term additionally receives `h * (id ⊗ sigma_z)`; no other term is
modified. -/
theorem h_terms_construction (n : ℕ) (h : ℚ) (hn : 2 ≤ n) :
    (h_terms n h).length = n - 1 ∧
    (h_terms n h).take (n - 2) =
      List.replicate (n - 2)
        (madd (madd (kron mpx mpx) (kron mpy mpy)) (smul h (kron mpz mid))) ∧
    (h_terms n h)[n - 2]? =
      some (madd (madd (madd (kron mpx mpx) (kron mpy mpy)) (smul h (kron mpz mid)))
        (smul h (kron mid mpz))) := by
  obtain ⟨m, rfl⟩ : ∃ m, n = m + 2 := ⟨n - 2, by omega⟩
  have hrw : h_terms (m + 2) h =
      List.replicate (m + 1 - 1) (h_term h) ++
        [madd (h_term h) (smul h (kron mid mpz))] := by
    show updLast _ (List.replicate (m + 2 - 1) (h_term h)) = _
    have : m + 2 - 1 = m + 1 := by omega
    rw [this, updLast_replicate]
    simp
  rw [hrw]
  refine ⟨?_, ?_, ?_⟩
  · simp
  · have hm : m + 2 - 2 = m := by omega
    rw [hm]
    have hlen : (List.replicate (m + 1 - 1) (h_term h)).length = m := by simp
    rw [List.take_left' hlen]
    simp [h_term]
  · have hm : m + 2 - 2 = m := by omega
    rw [hm]
    have hlen : (List.replicate (m + 1 - 1) (h_term h)).length = m := by simp
    rw [List.getElem?_append_right (by omega)]
    rw [hlen]
    simp [h_term]

/-- Witness for C2 at the notebook's own parameters (`n_sites = 6`,
`h = 0.3`). -/
theorem h_terms_construction_witness :
    2 ≤ 6 ∧
    (h_terms 6 hVal).length = 6 - 1 ∧
    (h_terms 6 hVal).take (6 - 2) =
      List.replicate (6 - 2)
        (madd (madd (kron mpx mpx) (kron mpy mpy)) (smul hVal (kron mpz mid))) ∧
    (h_terms 6 hVal)[6 - 2]? =
      some (madd (madd (madd (kron mpx mpx) (kron mpy mpy)) (smul hVal (kron mpz mid)))
        (smul hVal (kron mid mpz))) :=
  ⟨by decide, h_terms_construction 6 hVal (by decide)⟩

/-! ## Initial product state (notebook 02, cell 11)

Source:
  psi_0 = mp.chain(([mup, mdown] * ((n_sites + 1) // 2))[:n_sites])
The Python list repetition `xs * k` is `k`-fold concatenation and `[:n]` is
`List.take n`; `mp.chain` of the single-site MPSs forms the product state
whose factors are exactly the elements of that list. -/

/-- Single-qubit state vector (2 complex entries). -/
abbrev Vec2 : Type := GQ × GQ

/-- Spin up, `up = np.array([1, 0])` / `mup` in `00_intro.ipynb`. -/
def up : Vec2 := ((1, 0), (0, 0))

/-- Spin down, `down = np.array([0, 1])` / `mdown` in `00_intro.ipynb`. -/
def down : Vec2 := ((0, 0), (1, 0))

/-- The list of single-site factors of the product state `psi_0` of
notebook 02, cell 11, for chain length `n`. -/
def psi_0 (n : ℕ) : List Vec2 :=
  (List.flatten (List.replicate ((n + 1) / 2) [up, down])).take n

lemma altFlatten_length (a b : α) :
    ∀ k : ℕ, (List.flatten (List.replicate k [a, b])).length = 2 * k := by
  intro k
  induction k with
  | zero => rfl
  | succ m ih =>
    rw [List.replicate_succ, List.flatten_cons]
    simp only [List.length_append, ih, List.length_cons, List.length_nil]
    omega

lemma altFlatten_getElem? (a b : α) :
    ∀ (k i : ℕ), i < 2 * k →
      (List.flatten (List.replicate k [a, b]))[i]? =
        some (if i % 2 = 0 then a else b) := by
  intro k
  induction k with
  | zero => intro i hi; omega
  | succ m ih =>
    intro i hi
    rw [List.replicate_succ, List.flatten_cons]
    match i with
    | 0 => simp
    | 1 => simp
    | (j + 2) =>
      have h1 : ([a, b] ++ List.flatten (List.replicate m [a, b]))[j + 2]? =
          (List.flatten (List.replicate m [a, b]))[j]? := by
        rw [List.getElem?_append_right (by simp)]
        simp
      rw [h1, ih j (by omega)]
      have h2 : (j + 2) % 2 = j % 2 := by omega
      rw [h2]

/-- C10: for every positive chain length `n`, the initial-state construction
`([up, down] * ((n + 1) // 2))[:n]` yields a list of exactly `n` single-site
states alternating up, down, ... starting with up, for even and odd `n`
alike, so `psi_0` is a product state on exactly `n` sites. -/
theorem psi_0_alternating (n i : ℕ) (_hn : 0 < n) :
    (psi_0 n).length = n ∧
    (i < n → (psi_0 n)[i]? = some (if i % 2 = 0 then up else down)) := by
  have hlen2 : (List.flatten (List.replicate ((n + 1) / 2) [up, down])).length =
      2 * ((n + 1) / 2) := altFlatten_length up down ((n + 1) / 2)
  constructor
  · show (List.take n _).length = n
    rw [List.length_take, hlen2]
    omega
  · intro hi
    show (List.take n _)[i]? = _
    rw [List.getElem?_take_of_lt hi]
    exact altFlatten_getElem? up down _ i (by omega)

/-- Witness for C10 at the odd chain length 5, index 4. -/
theorem psi_0_alternating_witness :
    0 < 5 ∧
    ((psi_0 5).length = 5 ∧
      (4 < 5 → (psi_0 5)[4]? = some (if 4 % 2 = 0 then up else down))) :=
  ⟨by decide, psi_0_alternating 5 4 (by decide)⟩

/-! ## Two-site evolution operators and their even/odd slices
(notebook 02, cells 15 and 16)

Source:
  h_evos = [mp.MPArray.from_array_global(
              sp.linalg.expm((-1j * tau) * term.to_array_global()...)...)
            for term in h_terms]
  h_evo_even = mp.chain(h_evos[0::2])
  h_evo_odd = mp.chain(h_evos[1::2])

The matrix exponential is computed by the external library (scipy); we
represent `expm((-1j * tau) * term)` symbolically by the scalar `-1j * tau`
and the generator `term` the notebook passes to it. -/

/-- Symbolic two-site evolution operator `expm(minusITau * generator)`,
produced by the external `sp.linalg.expm`. -/
inductive EvoOp where
  | expm (minusITau : GQ) (generator : Mat4)
deriving DecidableEq

/-- The list `h_evos` of notebook 02, cell 15: one evolution operator
`expm((-1j * tau) * h_terms[i])` per nearest-neighbour term. -/
def h_evos (n : ℕ) (h : ℚ) : List EvoOp :=
  (h_terms n h).map (fun tm => EvoOp.expm ((0 : ℚ), -tauVal) tm)

/-- Python extended slice `xs[0::2]`: every second element starting at 0. -/
def everyOther : List α → List α
  | [] => []
  | [a] => [a]
  | a :: _ :: l => a :: everyOther l

lemma everyOther_cons (b : α) (t : List α) :
    everyOther (b :: t) = b :: everyOther t.tail := by
  cases t <;> rfl

lemma everyOther_spec (l : List α) :
    (∀ k, (everyOther l)[k]? = l[2 * k]?) ∧
    (∀ k, (everyOther l.tail)[k]? = l[2 * k + 1]?) := by
  induction l with
  | nil => constructor <;> intro k <;> simp [everyOther]
  | cons a t ih =>
    constructor
    · intro k
      rw [everyOther_cons]
      match k with
      | 0 => simp
      | (j + 1) =>
        rw [List.getElem?_cons_succ, ih.2 j]
        have h2 : 2 * (j + 1) = (2 * j + 1) + 1 := by ring
        rw [h2, List.getElem?_cons_succ]
    · intro k
      show (everyOther t)[k]? = (a :: t)[2 * k + 1]?
      rw [ih.1 k, List.getElem?_cons_succ]

lemma everyOther_length_spec (l : List α) :
    (everyOther l).length = (l.length + 1) / 2 ∧
    (everyOther l.tail).length = l.length / 2 := by
  induction l with
  | nil => exact ⟨by simp [everyOther], by simp [everyOther]⟩
  | cons a t ih =>
    constructor
    · rw [everyOther_cons]
      simp only [List.length_cons, List.tail_cons, ih.2]
      omega
    · show (everyOther t).length = (a :: t).length / 2
      simp only [List.length_cons, ih.1]

lemma everyOther_count [DecidableEq α] (x : α) :
    ∀ l : List α, (everyOther l).count x + (everyOther l.tail).count x =
      l.count x := by
  intro l
  induction l with
  | nil => rfl
  | cons a t ih =>
    rw [everyOther_cons]
    show ((a :: everyOther t.tail).count x) + ((everyOther t).count x) =
      (a :: t).count x
    rw [List.count_cons, List.count_cons, ← ih]
    ring

/-- The factor list of `h_evo_even = mp.chain(h_evos[0::2])`. -/
def h_evo_even (n : ℕ) (h : ℚ) : List EvoOp := everyOther (h_evos n h)

/-- The factor list of `h_evo_odd = mp.chain(h_evos[1::2])`. -/
def h_evo_odd (n : ℕ) (h : ℚ) : List EvoOp := everyOther ((h_evos n h).drop 1)

/-- C9: the slices `h_evos[0::2]` and `h_evos[1::2]` partition the list of
two-site evolution operators: the even slice holds exactly the operators of
even index, the odd slice exactly those of odd index, their lengths add up,
and every operator value occurs in the two slices with the same total
multiplicity as in `h_evos` — so each Trotter step applies every two-site
exponential exactly once. -/
theorem even_odd_slices_partition (n : ℕ) (h : ℚ) (k : ℕ) (x : EvoOp) :
    (h_evo_even n h)[k]? = (h_evos n h)[2 * k]? ∧
    (h_evo_odd n h)[k]? = (h_evos n h)[2 * k + 1]? ∧
    (h_evo_even n h).length + (h_evo_odd n h).length = (h_evos n h).length ∧
    (h_evo_even n h).count x + (h_evo_odd n h).count x =
      (h_evos n h).count x := by
  have hd : (h_evos n h).drop 1 = (h_evos n h).tail := List.drop_one _
  refine ⟨(everyOther_spec _).1 k, ?_, ?_, ?_⟩
  · show (everyOther ((h_evos n h).drop 1))[k]? = _
    rw [hd]
    exact (everyOther_spec _).2 k
  · show (everyOther (h_evos n h)).length +
        (everyOther ((h_evos n h).drop 1)).length = _
    rw [hd, (everyOther_length_spec _).1, (everyOther_length_spec _).2]
    omega
  · show (everyOther (h_evos n h)).count x +
        (everyOther ((h_evos n h).drop 1)).count x = _
    rw [hd]
    exact everyOther_count x _

/-! ## Call traces

The notebooks' own contribution is which external library functions they
call, in which order and with which arguments; we embed the relevant code
as explicit traces of call events. -/

/-- A diagnostic quantity printed by notebook 02.  States and vectors are
referred to by the variable name the notebook prints them from. -/
inductive PrintItem where
  | ranksOfTerms
  | normOfState (state : String)
  | absOverlap (a b : String)
  | eigvalDiff
  | relVariance (vec : String)
deriving DecidableEq

/-- An external library call made by notebook 02.  `pdot op start` is
`mp.partialdot(op, psi, start)` with the operator referred to by its
variable name; `compressCall` is `.compress(method, relerr)`;
`eigsFunDef k which` is `eigs_fun = ft.partial(spa.linalg.eigsh, k, which)`;
`mpEig numSweeps startvecRank eigsArg` is
`mp.linalg.eig(H_mpo, num_sweeps, startvec_rank, eigs)`. -/
inductive LibCall where
  | pdot (op : String) (startSite : ℕ)
  | compressCall (method : String) (relerr : ℚ)
  | localSum
  | eigsFunDef (k : ℕ) (which : String)
  | mpEig (numSweeps : ℕ) (startvecRank : ℕ) (eigsArg : String)
  | toArrayCall (obj : String)
  | mpDot
  | mpNorm
  | mpInner
  | printEvent (item : PrintItem)
deriving DecidableEq

/-! ### Trotter time-evolution loop (notebook 02, cell 17)

Source:
  psi = psi_0
  for i in range(steps):
      psi = mp.partialdot(h_evo_even, psi, 0)
      psi = mp.partialdot(h_evo_odd, psi, 1)
      psi.compress(method='svd', relerr=1e-10)
-/

/-- The three external library calls of one iteration of the Trotter loop,
in source order. -/
def trotterBody : List LibCall :=
  [LibCall.pdot "h_evo_even" 0,
   LibCall.pdot "h_evo_odd" 1,
   LibCall.compressCall "svd" relerrVal]

/-- The external library calls made by `for i in range(s)` iterations of
the Trotter loop, in order. -/
def trotterTrace : ℕ → List LibCall
  | 0 => []
  | s + 1 => trotterTrace s ++ trotterBody

lemma trotterTrace_eq (s : ℕ) :
    trotterTrace s = (List.replicate s trotterBody).flatten := by
  induction s with
  | zero => rfl
  | succ m ih =>
    show trotterTrace m ++ trotterBody = _
    rw [ih, List.replicate_succ' m trotterBody, List.flatten_append]
    simp

lemma flatten_replicate_getElem? (b : List α) :
    ∀ (s k j : ℕ), k < s → j < b.length →
      (List.replicate s b).flatten[b.length * k + j]? = b[j]? := by
  intro s
  induction s with
  | zero => intro k j hk _; omega
  | succ m ih =>
    intro k j hk hj
    rw [List.replicate_succ, List.flatten_cons]
    match k with
    | 0 =>
      simp only [Nat.mul_zero, Nat.zero_add]
      exact List.getElem?_append_left hj
    | (k0 + 1) =>
      have harith : b.length * (k0 + 1) + j = b.length + (b.length * k0 + j) := by
        ring
      rw [harith, List.getElem?_append_right (by omega)]
      have hsub : b.length + (b.length * k0 + j) - b.length = b.length * k0 + j := by
        omega
      rw [hsub]
      exact ih k0 j (by omega) hj

lemma trotterTrace_length (s : ℕ) : (trotterTrace s).length = 3 * s := by
  induction s with
  | zero => rfl
  | succ m ih =>
    show (trotterTrace m ++ trotterBody).length = _
    rw [List.length_append, ih]
    rfl

/-- C1: every one of the `steps` iterations of the Trotter time-evolution
loop calls exactly three external library functions, in order: application
of the even evolution operator (`mp.partialdot` with start site 0),
application of the odd evolution operator (`mp.partialdot` with start site
1), and one SVD compression of the state (`psi.compress` with relerr
1e-10) — the whole trace of `s` iterations has exactly `3 * s` calls and
iteration `k` contributes calls `3k`, `3k+1`, `3k+2`. -/
theorem trotter_step_calls_three (s k : ℕ) (hk : k < s) :
    (trotterTrace s).length = 3 * s ∧
    (trotterTrace s)[3 * k]? = some (LibCall.pdot "h_evo_even" 0) ∧
    (trotterTrace s)[3 * k + 1]? = some (LibCall.pdot "h_evo_odd" 1) ∧
    (trotterTrace s)[3 * k + 2]? = some (LibCall.compressCall "svd" relerrVal) := by
  have hb : trotterBody.length = 3 := rfl
  have hget : ∀ j : ℕ, j < 3 →
      (trotterTrace s)[3 * k + j]? = trotterBody[j]? := by
    intro j hj
    rw [trotterTrace_eq]
    have := flatten_replicate_getElem? trotterBody s k j hk (by rw [hb]; exact hj)
    rw [hb] at this
    exact this
  refine ⟨trotterTrace_length s, ?_, ?_, ?_⟩
  · have h0 := hget 0 (by omega)
    rw [Nat.add_zero] at h0
    rw [h0]
    rfl
  · rw [hget 1 (by omega)]
    rfl
  · rw [hget 2 (by omega)]
    rfl

/-- Witness for C1 at the notebook's `steps = 5`, iteration 2. -/
theorem trotter_step_calls_three_witness :
    2 < steps ∧
    ((trotterTrace steps).length = 3 * steps ∧
      (trotterTrace steps)[3 * 2]? = some (LibCall.pdot "h_evo_even" 0) ∧
      (trotterTrace steps)[3 * 2 + 1]? = some (LibCall.pdot "h_evo_odd" 1) ∧
      (trotterTrace steps)[3 * 2 + 2]? =
        some (LibCall.compressCall "svd" relerrVal)) :=
  ⟨by decide, trotter_step_calls_three steps 2 (by decide)⟩

/-! ### Ground-state search with MPS (notebook 02, cell 23)

Source:
  H_mpo = mp.local_sum(h_terms)
  eigs_fun = ft.partial(spa.linalg.eigsh, k=1, which='SR')
  (with functools imported as ft)
  eigval, eigvec = mp.linalg.eig(H_mpo, num_sweeps=5, startvec_rank=4,
                                 eigs=eigs_fun)
  eigvec_arr = eigvec.to_array().ravel()
  Hpsi = mp.dot(H_mpo, eigvec)
  ept_Hsq = mp.norm(Hpsi)**2
  ept_H = mp.inner(eigvec, Hpsi).real
  rel_var = (ept_Hsq - ept_H**2) / ept_H**2
  print(...)  # three diagnostic prints
-/

/-- The sequence of library calls of the ground-state MPS cell, in source
order. -/
def groundStateMPSCell : List LibCall :=
  [LibCall.localSum,
   LibCall.eigsFunDef 1 "SR",
   LibCall.mpEig 5 4 "eigs_fun",
   LibCall.toArrayCall "eigvec",
   LibCall.mpDot,
   LibCall.mpNorm,
   LibCall.mpInner,
   LibCall.printEvent PrintItem.eigvalDiff,
   LibCall.printEvent (PrintItem.absOverlap "eigvec_spa" "eigvec_arr"),
   LibCall.printEvent (PrintItem.relVariance "eigvec")]

/-- Recogniser for calls to the variational MPS eigensolver
`mp.linalg.eig`. -/
def isVarEigCall : LibCall → Bool
  | LibCall.mpEig _ _ _ => true
  | _ => false

/-- C3: the ground-state search with matrix product states consists of a
single call to the variational eigensolver `mp.linalg.eig`, with
`num_sweeps = 5` and `startvec_rank = 4`, passing the eigsh-based inner
solver `eigs_fun = ft.partial(spa.linalg.eigsh, k=1, which='SR')`; no
other variational eigensolver call occurs in the cell. -/
theorem ground_state_single_eig_call :
    groundStateMPSCell.filter isVarEigCall = [LibCall.mpEig 5 4 "eigs_fun"] ∧
    groundStateMPSCell.countP isVarEigCall = 1 ∧
    LibCall.eigsFunDef 1 "SR" ∈ groundStateMPSCell := by
  decide

/-! ### Diagnostic prints of notebook 02 (cells 7, 12, 17 and 23) -/

/-- The relative variance computed in cell 23:
`rel_var = (ept_Hsq - ept_H**2) / ept_H**2`. -/
def rel_var (ept_Hsq ept_H : ℚ) : ℚ := (ept_Hsq - ept_H ^ 2) / ept_H ^ 2

/-- All print statements of notebook 02, in source order: the two rank
lists of cell 7, the sparse-evolution norm of cell 12, the MPS-evolution
norm and overlap of cell 17, and the three diagnostics of cell 23. -/
def notebook02Prints : List PrintItem :=
  [PrintItem.ranksOfTerms,
   PrintItem.ranksOfTerms,
   PrintItem.normOfState "psi_t_spa",
   PrintItem.normOfState "psi_t_arr",
   PrintItem.absOverlap "psi_t_arr" "psi_t_spa",
   PrintItem.eigvalDiff,
   PrintItem.absOverlap "eigvec_spa" "eigvec_arr",
   PrintItem.relVariance "eigvec"]

/-- C8: notebook 02 prints the Euclidean norm of each of the two
time-evolved states, the absolute overlap between the MPS-evolved state
and the sparse-matrix solution, the absolute overlap between the
variational and sparse eigenvectors, and the relative variance of the
variational eigenvector, where `rel_var` is the quotient
`(ept_Hsq - ept_H^2) / ept_H^2` (checked here at ept_Hsq = 5, ept_H = 2). -/
theorem diagnostics_printed :
    PrintItem.normOfState "psi_t_spa" ∈ notebook02Prints ∧
    PrintItem.normOfState "psi_t_arr" ∈ notebook02Prints ∧
    PrintItem.absOverlap "psi_t_arr" "psi_t_spa" ∈ notebook02Prints ∧
    PrintItem.absOverlap "eigvec_spa" "eigvec_arr" ∈ notebook02Prints ∧
    PrintItem.relVariance "eigvec" ∈ notebook02Prints ∧
    rel_var 5 2 = 1 / 4 := by
  refine ⟨by decide, by decide, by decide, by decide, by decide, ?_⟩
  norm_num [rel_var]

/-! ### Optional memory limit (notebook 00, cell 2)

Source:
  max_gb = 2
  try: [line 2] imports the resource module
  except ImportError: resource = None
  if resource is None:
      print('Warning: No memory limit set!')
  else:
      resource.setrlimit(resource.RLIMIT_AS, (max_gb * 2**30,
                                              resource.RLIM_INFINITY))

The parameter of the embedding is whether `import resource` succeeds; the
hard limit `RLIM_INFINITY` is modelled as `none`. -/

/-- An observable effect of the memory-limit cell: a printed message or a
`resource.setrlimit` call with resource name, soft limit and hard limit. -/
inductive SysEffect where
  | printMsg (msg : String)
  | setrlimit (res : String) (softLimit : ℕ) (hardLimit : Option ℕ)
deriving DecidableEq

/-- Recogniser for `resource.setrlimit` effects. -/
def isSetrlimit : SysEffect → Bool
  | SysEffect.setrlimit _ _ _ => true
  | _ => false

/-- The constant `max_gb = 2` of notebook 00, cell 2. -/
def max_gb : ℕ := 2

/-- The effects of the memory-limit cell of notebook 00, as a function of
whether `import resource` succeeds (it raises ImportError iff
`resourceAvailable = false`). -/
def memoryLimitCell (resourceAvailable : Bool) : List SysEffect :=
  if resourceAvailable then
    [SysEffect.setrlimit "RLIMIT_AS" (max_gb * 2 ^ 30) none]
  else
    [SysEffect.printMsg "Warning: No memory limit set!"]

/-- C4: the optional memory-limit code is a guard around the environment:
if importing the resource module raises ImportError, a warning is printed
and no limit is set; otherwise `resource.setrlimit` is called exactly once
with RLIMIT_AS, soft limit `max_gb * 2^30 = 2147483648` bytes and hard
limit RLIM_INFINITY; in neither branch does any other effect occur. -/
theorem memory_limit_guard :
    memoryLimitCell false = [SysEffect.printMsg "Warning: No memory limit set!"] ∧
    (memoryLimitCell false).countP isSetrlimit = 0 ∧
    memoryLimitCell true = [SysEffect.setrlimit "RLIMIT_AS" 2147483648 none] ∧
    (memoryLimitCell true).countP isSetrlimit = 1 ∧
    (memoryLimitCell true).length = 1 ∧
    (memoryLimitCell false).length = 1 ∧
    max_gb * 2 ^ 30 = 2147483648 := by
  decide

/-! ## Loop inventory of the two notebooks

Every `for` statement and comprehension/generator expression in the two
notebooks, with its iteration count as a function of the chain length
`n_sites` (the loops over `h_terms` and over `h_terms_arr` run over the
`n_sites - 1` nearest-neighbour chain positions; `range(steps)` runs
`steps` times; the two conversion generators of notebook 00 run over fixed
tuples of 2 and 5 arrays). -/

/-- One loop of the notebooks: which notebook it is in, its source
expression, and its iteration count as a function of `n_sites`. -/
structure NbLoop where
  notebook : String
  source : String
  count : ℕ → ℕ

/-- Cell 5: `h_term.copy() for _ in range(n_sites - 1)`. -/
def loop_h_terms : NbLoop :=
  ⟨"02", "h_term.copy() for _ in range(n_sites - 1)", fun n => n - 1⟩

/-- Cell 7, first print: `t.ranks for t in h_terms`. -/
def loop_ranks1 : NbLoop :=
  ⟨"02", "t.ranks for t in h_terms, before compression", fun n => n - 1⟩

/-- Cell 7: `t.compress(...) for t in h_terms`. -/
def loop_compress_terms : NbLoop :=
  ⟨"02", "t.compress(...) for t in h_terms", fun n => n - 1⟩

/-- Cell 7, second print: `t.ranks for t in h_terms`. -/
def loop_ranks2 : NbLoop :=
  ⟨"02", "t.ranks for t in h_terms, after compression", fun n => n - 1⟩

/-- Cell 9: `t.to_array_global()... for t in h_terms`. -/
def loop_to_array : NbLoop :=
  ⟨"02", "t.to_array_global().reshape(...) for t in h_terms", fun n => n - 1⟩

/-- Cell 10: `for pos, term in enumerate(h_terms_arr)` (sparse Hamiltonian
assembly). -/
def loop_kron_sum : NbLoop :=
  ⟨"02", "for pos, term in enumerate(h_terms_arr)", fun n => n - 1⟩

/-- Cell 15: `... for term in h_terms` (evolution operators). -/
def loop_h_evos : NbLoop :=
  ⟨"02", "expm(...) for term in h_terms", fun n => n - 1⟩

/-- Cell 17: `for i in range(steps)` (Trotter time-evolution loop). -/
def loop_trotter : NbLoop :=
  ⟨"02", "for i in range(steps)", fun _ => steps⟩

/-- Notebook 00, cell 5: `mp.MPArray.from_array(x, ndims=1) for x in
(up, down)`. -/
def loop_mps_conv : NbLoop :=
  ⟨"00", "from_array(x, ndims=1) for x in (up, down)", fun _ => 2⟩

/-- Notebook 00, cell 5: `mp.MPArray.from_array(x, ndims=2) for x in
(px, py, pz, puu, pdd)`. -/
def loop_mpo_conv : NbLoop :=
  ⟨"00", "from_array(x, ndims=2) for x in (px, py, pz, puu, pdd)", fun _ => 5⟩

/-- All loops of the two notebooks.  (The list repetition
`[mup, mdown] * k` of cell 11 is not a loop construct.) -/
def nbLoops : List NbLoop :=
  [loop_h_terms, loop_ranks1, loop_compress_terms, loop_ranks2,
   loop_to_array, loop_kron_sum, loop_h_evos, loop_trotter,
   loop_mps_conv, loop_mpo_conv]

/-- C5 counterexample: it is false that every loop of the notebooks has an
iteration count depending on `n_sites` — the Trotter time-evolution loop
`for i in range(steps)` is a loop of the notebooks whose count is the
constant `steps`, independent of `n_sites`. -/
theorem loops_not_all_n_dependent_cex :
    ¬ (∀ lp ∈ nbLoops, ∃ a b : ℕ, lp.count a ≠ lp.count b) := by
  intro hall
  obtain ⟨a, b, hne⟩ := hall loop_trotter (by simp [nbLoops])
  exact hne rfl

/-- C5 amended: every loop of the notebooks iterates over the `n_sites - 1`
nearest-neighbour chain positions, except the Trotter time-stepping loop,
whose count is the constant `steps`, and the two fixed-size conversion
generators of the definitions notebook, whose counts are the constants 2
and 5. -/
theorem loops_iteration_counts (lp : NbLoop) (hm : lp ∈ nbLoops) :
    ((∀ n, lp.count n = n - 1) ∨
      lp = loop_trotter ∨ lp = loop_mps_conv ∨ lp = loop_mpo_conv) ∧
    (∀ n, loop_trotter.count n = steps) ∧
    (∀ n, loop_mps_conv.count n = 2) ∧
    (∀ n, loop_mpo_conv.count n = 5) := by
  refine ⟨?_, fun n => rfl, fun n => rfl, fun n => rfl⟩
  simp only [nbLoops, List.mem_cons, List.not_mem_nil, or_false] at hm
  rcases hm with rfl | rfl | rfl | rfl | rfl | rfl | rfl | rfl | rfl | rfl <;>
    first
      | exact Or.inl fun n => rfl
      | exact Or.inr (Or.inl rfl)
      | exact Or.inr (Or.inr (Or.inl rfl))
      | exact Or.inr (Or.inr (Or.inr rfl))

/-- Witness for the amended C5 at the Trotter loop. -/
theorem loops_iteration_counts_witness :
    ((∀ n, loop_trotter.count n = n - 1) ∨
      loop_trotter = loop_trotter ∨ loop_trotter = loop_mps_conv ∨
      loop_trotter = loop_mpo_conv) ∧
    (∀ n, loop_trotter.count n = steps) ∧
    (∀ n, loop_mps_conv.count n = 2) ∧
    (∀ n, loop_mpo_conv.count n = 5) :=
  loops_iteration_counts loop_trotter (by simp [nbLoops])

/-! ## Exception handling and validation (both notebooks)

Notebook 00 contains exactly one try/except statement (the ImportError
guard of the memory-limit cell) and exactly one conditional (`if resource
is None`), which tests import availability, not a computed numerical
result.  Notebook 02 contains no try/except, no conditional and no
assertion. -/

/-- An exception handler contributed by the repository: where it is, what
it catches, the fallback it assigns, and whether execution continues after
it. -/
structure ExcHandler where
  notebook : String
  caught : String
  fallbackAssign : String
  continuesWithFallback : Bool
deriving DecidableEq

/-- The ImportError guard of notebook 00, cell 2: catches ImportError,
assigns the fallback `resource = None` and continues. -/
def importGuardHandler : ExcHandler :=
  ⟨"00_intro.ipynb", "ImportError", "resource = None", true⟩

/-- All exception handlers in the code of the two notebooks. -/
def repoExceptionHandlers : List ExcHandler := [importGuardHandler]

/-- What a conditional in the notebooks branches on. -/
inductive CondTest where
  | importAvailability
  | computedResult
deriving DecidableEq

/-- A conditional statement contributed by the repository. -/
structure Conditional where
  place : String
  test : CondTest
deriving DecidableEq

/-- All conditional statements in the code of the two notebooks: only the
`if resource is None` of the memory-limit cell, which branches on whether
the import succeeded. -/
def repoConditionals : List Conditional :=
  [⟨"00_intro.ipynb memory-limit cell", CondTest.importAvailability⟩]

/-- C6 counterexample: the claim that no code of the repository catches an
exception and continues with a fallback is false — the ImportError guard
of the memory-limit cell is repository code that catches an exception and
continues with the fallback `resource = None`. -/
theorem exception_fallback_exists_cex :
    importGuardHandler ∈ repoExceptionHandlers ∧
    importGuardHandler.continuesWithFallback = true ∧
    importGuardHandler.caught = "ImportError" := by
  decide

/-- C6 amended: the ImportError guard around the optional
memory-limit import is the only code of the repository that catches an exception and
continues with a fallback; no other handler exists, and no code
automatically validates a computed result — no conditional branches on a
computed result, so correctness judgement is left to the external
library's exceptions and to human inspection of the printed
diagnostics. -/
theorem exception_handling_inventory :
    repoExceptionHandlers = [importGuardHandler] ∧
    importGuardHandler.continuesWithFallback = true ∧
    repoConditionals.all (fun c => c.test = CondTest.importAvailability) = true ∧
    repoConditionals.all (fun c => c.test ≠ CondTest.computedResult) = true := by
  decide

/-! ## Notebook inclusion (notebook 02, cell 2)

Notebook 02 obtains its shared definitions with the magic command
`%run init.ipynb` (resolved relative to the notebook's directory
`Quantum_physics/`).  The repository's files are the definitions notebook
`00_intro.ipynb` and notebook 02 itself; no file named `init.ipynb` is part
of the repository. -/

/-- The source files of the repository. -/
def repositorySourceFiles : List String :=
  ["Quantum_physics/00_intro.ipynb",
   "Quantum_physics/02_Time_evolution_and_ground_states.ipynb"]

/-- The target named by the magic command `%run init.ipynb` in notebook 02,
cell 2. -/
def runMagicTarget : String := "init.ipynb"

/-- The `%run` target resolved relative to the notebook's directory. -/
def runMagicResolvedTarget : String := "Quantum_physics/" ++ runMagicTarget

/-- The shared definitions notebook the repository provides. -/
def definitionsNotebookPath : String := "Quantum_physics/00_intro.ipynb"

/-- C7: the `%run` target of notebook 02 does not name any file of the
repository — the shared definitions notebook the repository provides is
`00_intro.ipynb`, while the magic command names `init.ipynb`. -/
theorem run_target_not_in_repository :
    runMagicResolvedTarget ∉ repositorySourceFiles ∧
    definitionsNotebookPath ∈ repositorySourceFiles ∧
    runMagicTarget ≠ "00_intro.ipynb" := by
  decide

end MpnumExamples
